import Mathlib

/-!
Verification development for the `Web-crawler` repository
(`src/web_crawler.py`).

The crawler keeps two URL sets, `urls_to_visit` (pending) and
`visited_urls`, pops a pending URL, fetches it through Playwright,
extracts same-host links with BeautifulSoup, feeds them back through
`add_url_to_visit`, marks the popped URL visited and appends the whole
visited set to the output file, looping while the pending set is
non-empty and fewer than `max_urls` URLs have been visited.

Python sets are modelled as duplicate-free lists in insertion order:
`set.pop()` and set iteration order are unspecified in Python, and we fix
the deterministic refinement that `pop` removes the head and iteration
follows insertion order.  The external effects (the Playwright page and
the BeautifulSoup parser) are modelled as an explicit environment;
exceptions raised by them are modelled with `Except`.
-/

namespace WebCrawler

/-- Python `str.startswith`: `isPrefixChars pre s` decides whether the
character list `pre` is an initial segment of `s`. -/
def isPrefixChars : List Char → List Char → Bool
  | [], _ => true
  | _ :: _, [] => false
  | p :: ps, c :: cs => if p = c then isPrefixChars ps cs else false

/-- Python `str.startswith` on `String`. -/
def startswith (s pre : String) : Bool :=
  isPrefixChars pre.data s.data

/-- Characters allowed in a URL scheme after the initial letter, as in
`urllib.parse` (`scheme_chars`). -/
def schemeChar (c : Char) : Bool :=
  c.isAlphanum || c = '+' || c = '-' || c = '.'

/-- Scan for the `:` ending a scheme, mirroring the scheme split of
`urllib.parse.urlsplit`: all characters before the first `:` must be
scheme characters, and the scheme is lowercased. -/
def splitSchemeAux : List Char → List Char → Option (String × List Char)
  | _, [] => none
  | acc, c :: rest =>
    if c = ':' then some (⟨(acc.reverse).map Char.toLower⟩, rest)
    else if schemeChar c then splitSchemeAux (c :: acc) rest
    else none

/-- Split a leading `scheme:` off a URL as `urllib.parse.urlsplit` does:
the scheme must be non-empty, start with a letter and be followed by `:`.
Returns the lowercased scheme and the remainder, or `none` when the URL
has no scheme. -/
def splitScheme : List Char → Option (String × List Char)
  | [] => none
  | c :: rest => if c.isAlpha then splitSchemeAux [c] rest else none

/-- Take the network-location characters: everything up to the first
`/`, `?` or `#`, as `urllib.parse.urlsplit` does after `//`. -/
def takeNetloc : List Char → List Char
  | [] => []
  | c :: rest => if c = '/' ∨ c = '?' ∨ c = '#' then [] else c :: takeNetloc rest

/-- Python `urllib.parse.urlparse(url).netloc`: strip an optional
`scheme:`, then, when the remainder starts with `//`, the netloc is what
follows up to the first `/`, `?` or `#`; otherwise it is empty. -/
def urlparse_netloc (url : String) : String :=
  let rest := match splitScheme url.data with
    | some (_, r) => r
    | none => url.data
  match rest with
  | '/' :: '/' :: r => ⟨takeNetloc r⟩
  | _ => ""

/-- Python `urllib.parse.urljoin(base, url)`, restricted to the only
case the crawler reaches: a reference `url` that begins with `/`
(`get_linked_urls` calls `urljoin` only under `path.startswith('/')`).
A `//`-reference keeps only the base scheme (network-path reference); a
single-`/` reference keeps the base scheme and netloc. -/
def urljoin (base url : String) : String :=
  match splitScheme base.data with
  | none => url
  | some (sch, rest) =>
    if startswith url "//" then sch ++ ":" ++ url
    else match rest with
      | '/' :: '/' :: r => sch ++ "://" ++ (⟨takeNetloc r⟩ : String) ++ url
      | _ => sch ++ ":" ++ url

/-- An anchor element of a parsed page; `href := none` models an `<a>`
tag carrying no href attribute. -/
structure Anchor where
  href : Option String
deriving DecidableEq

/-- Parse-result abstraction of a BeautifulSoup document: the sequence
of anchor elements of the page, in document order.  (HTML parsing itself
is the library's job and is out of scope; the crawler only consumes
`soup.find_all('a', href=True)`.) -/
structure Html where
  anchors : List Anchor
deriving DecidableEq

/-- Loop body of `Crawler.get_linked_urls` for one href value `path`:
if `path` starts with `/` it is resolved with `urljoin(base_url, path)`,
else if it does not start with `http` it is skipped (`continue`), and
the result is yielded only when its netloc equals the netloc of
`base_url`. -/
def href_to_link (base_url path : String) : Option String :=
  let resolved : Option String :=
    if startswith path "/" then some (urljoin base_url path)
    else if startswith path "http" then some path
    else none
  match resolved with
  | some p => if urlparse_netloc p = urlparse_netloc base_url then some p else none
  | none => none

/-- `Crawler.get_linked_urls`: iterate over `soup.find_all('a', href=True)`
(the anchors that carry an href) and yield the filtered links. -/
def get_linked_urls (base_url : String) (soup : Html) : List String :=
  (soup.anchors.filterMap Anchor.href).filterMap (href_to_link base_url)

/-- Python `set.add` on the duplicate-free-list model of a set: append
the element unless it is already present. -/
def setAdd (l : List String) (u : String) : List String :=
  if u ∈ l then l else l ++ [u]

/-- Python `set(urls)`: deduplicate a list, keeping first occurrences. -/
def setOfList (l : List String) : List String :=
  l.foldl setAdd []

/-- Mutable state of a `Crawler` instance: the pending set
`urls_to_visit`, the visited set `visited_urls`, and the lines written
so far to the output file (the Sink). -/
structure CrawlerState where
  urls_to_visit : List String
  visited_urls : List String
  output_lines : List String
deriving DecidableEq

/-- `Crawler.__init__`: `visited_urls = set()`, `urls_to_visit = set(urls)`,
and nothing written yet in this run. -/
def initState (urls : List String) : CrawlerState :=
  { urls_to_visit := setOfList urls, visited_urls := [], output_lines := [] }

/-- `Crawler.add_url_to_visit`: add `url` to `urls_to_visit` iff it is in
neither `visited_urls` nor `urls_to_visit`. -/
def add_url_to_visit (s : CrawlerState) (url : String) : CrawlerState :=
  if url ∉ s.visited_urls ∧ url ∉ s.urls_to_visit then
    { s with urls_to_visit := s.urls_to_visit ++ [url] }
  else s

/-- `Crawler.save_visited_urls`: append every URL of the current visited
set, one per line, to the output file. -/
def save_visited_urls (s : CrawlerState) : CrawlerState :=
  { s with output_lines := s.output_lines ++ s.visited_urls }

/-- External collaborators of one crawl run: `browse url` is the
Playwright interaction of `download_url` (`page.goto`, waiting for the
network, `page.content()`), which either returns the page content or
raises; `parse html` is `BeautifulSoup(html, 'html.parser')`, which
either returns the parsed document or raises. -/
structure Env where
  browse : String → Except String String
  parse : String → Except String Html

/-- `Crawler.download_url` with its exception channel made explicit:
the whole body sits in `try`, and `except Exception` turns any raised
error into the returned `None`.  The result is `Except.ok` of the
two-variant `Option` in every case. -/
def download_urlE (env : Env) (url : String) : Except String (Option String) :=
  match env.browse url with
  | Except.ok content => Except.ok (some content)
  | Except.error _ => Except.ok none

/-- `Crawler.download_url` as its caller sees it: the page content, or
`None` when fetching raised. -/
def download_url (env : Env) (url : String) : Option String :=
  match env.browse url with
  | Except.ok content => some content
  | Except.error _ => none

/-- `Crawler.crawl`: download the page; when the content is truthy
(not `None` and not the empty string), parse it and feed every
extracted link through `add_url_to_visit`.  A parser exception escapes
(it is caught only by `run`); it occurs before any link is added. -/
def crawlE (env : Env) (url : String) (s : CrawlerState) : Except String CrawlerState :=
  match download_url env url with
  | some html =>
    if html = "" then Except.ok s
    else
      match env.parse html with
      | Except.ok soup =>
        Except.ok ((get_linked_urls url soup).foldl add_url_to_visit s)
      | Except.error e => Except.error e
  | none => Except.ok s

/-- The `try: await self.crawl(url) / except Exception: log` block of
`Crawler.run`: a crawl exception is swallowed, leaving the state as it
was when `crawl` raised (the parser raises before any link is added). -/
def tryCrawl (env : Env) (url : String) (s : CrawlerState) : CrawlerState :=
  match crawlE env url s with
  | Except.ok t => t
  | Except.error _ => s

/-- One iteration of the `while` loop of `Crawler.run`: pop a pending
URL (head of the insertion-order model of the set), `try` to crawl it,
and in `finally` add the URL to `visited_urls` and call
`save_visited_urls`. -/
def runStep (env : Env) (s : CrawlerState) : CrawlerState :=
  match s.urls_to_visit with
  | [] => s
  | url :: rest =>
    let s1 : CrawlerState := tryCrawl env url { s with urls_to_visit := rest }
    save_visited_urls { s1 with visited_urls := setAdd s1.visited_urls url }

/-- Guard of the `while` loop of `Crawler.run`
(`while self.urls_to_visit and len(self.visited_urls) < self.max_urls`);
the spec calls it `shouldContinue`. -/
def shouldContinue (max_urls : Nat) (s : CrawlerState) : Bool :=
  !s.urls_to_visit.isEmpty && decide (s.visited_urls.length < max_urls)

/-- The `while` loop of `Crawler.run`, indexed by a fuel bound on the
number of iterations: while the guard holds, perform `runStep`. -/
def runLoop (env : Env) (max_urls : Nat) : Nat → CrawlerState → CrawlerState
  | 0, s => s
  | Nat.succ fuel, s =>
    if shouldContinue max_urls s then runLoop env max_urls fuel (runStep env s) else s

/-- The Frontier invariant of the spec: the pending set and the visited
set share no URL. -/
def PendingVisitedDisjoint (s : CrawlerState) : Prop :=
  ∀ x ∈ s.urls_to_visit, x ∉ s.visited_urls

instance (s : CrawlerState) : Decidable (PendingVisitedDisjoint s) := by
  unfold PendingVisitedDisjoint
  infer_instance

/-- An environment in which every fetch raises (the Fetcher always
fails), used to exercise the failure-isolation paths. -/
def failEnv : Env :=
  { browse := fun _ => Except.error "network down",
    parse := fun _ => Except.error "no parse" }

/-- An environment in which every page contains a single link to `/`,
so each crawled page links back to itself. -/
def selfLinkEnv : Env :=
  { browse := fun _ => Except.ok "page",
    parse := fun _ => Except.ok { anchors := [{ href := some "/" }] } }

/-- An environment in which the page at `https://a.com/` links to `/b`
and every other fetch fails. -/
def seedABEnv : Env :=
  { browse := fun url => if url = "https://a.com/" then Except.ok "pageA" else Except.error "down",
    parse := fun c => if c = "pageA" then Except.ok { anchors := [{ href := some "/b" }] }
      else Except.error "no parse" }

/-- An environment in which the page at `https://a.com/` links to `/b`
and `/c` and every other fetch fails. -/
def seedABCEnv : Env :=
  { browse := fun url => if url = "https://a.com/" then Except.ok "pageA" else Except.error "down",
    parse := fun c =>
      if c = "pageA" then Except.ok { anchors := [{ href := some "/b" }, { href := some "/c" }] }
      else Except.error "no parse" }

/-- The extraction scenario of the spec: three anchors, one
root-relative, one absolute same-host, one absolute foreign-host. -/
def exampleSoup : Html :=
  { anchors := [{ href := some "/page1" }, { href := some "https://example.com/page2" },
                { href := some "https://otherdomain.com/page" }] }

/-- A small concrete crawler state used to instantiate the stateful
theorems: one pending URL, one visited URL, nothing written yet. -/
def stateW : CrawlerState :=
  { urls_to_visit := ["https://p.com/"], visited_urls := ["https://v.com/"], output_lines := [] }

/-- The state in which the `maxPages = 1` crawl over seed
`https://a.com/` (whose page links to `/b` and `/c`) halts. -/
def budgetOneFinal : CrawlerState :=
  { urls_to_visit := ["https://a.com/b", "https://a.com/c"],
    visited_urls := ["https://a.com/"],
    output_lines := ["https://a.com/"] }

/-- Membership in the set-add model. -/
theorem mem_setAdd {l : List String} {u x : String} :
    x ∈ setAdd l u ↔ x ∈ l ∨ x = u := by
  unfold setAdd
  by_cases h : u ∈ l
  · simp only [if_pos h]
    constructor
    · exact Or.inl
    · rintro (hx | rfl)
      · exact hx
      · exact h
  · simp [if_neg h]

/-- Adding to the set model grows the length by at most one. -/
theorem length_setAdd_le (l : List String) (u : String) :
    (setAdd l u).length ≤ l.length + 1 := by
  unfold setAdd
  by_cases h : u ∈ l
  · simp [if_pos h]
  · simp [if_neg h]

/-- `add_url_to_visit` never touches the visited set. -/
theorem add_url_to_visit_visited (s : CrawlerState) (u : String) :
    (add_url_to_visit s u).visited_urls = s.visited_urls := by
  unfold add_url_to_visit
  by_cases h : u ∉ s.visited_urls ∧ u ∉ s.urls_to_visit
  · simp [if_pos h]
  · simp [if_neg h]

/-- `add_url_to_visit` never touches the output file. -/
theorem add_url_to_visit_output (s : CrawlerState) (u : String) :
    (add_url_to_visit s u).output_lines = s.output_lines := by
  unfold add_url_to_visit
  by_cases h : u ∉ s.visited_urls ∧ u ∉ s.urls_to_visit
  · simp [if_pos h]
  · simp [if_neg h]

/-- Feeding any list of links through `add_url_to_visit` never touches
the visited set. -/
theorem foldl_add_url_to_visit_visited (l : List String) (s : CrawlerState) :
    (l.foldl add_url_to_visit s).visited_urls = s.visited_urls := by
  induction l generalizing s with
  | nil => rfl
  | cons x xs ih => rw [List.foldl_cons, ih, add_url_to_visit_visited]

/-- When `crawl` returns normally, the visited set is unchanged. -/
theorem crawlE_ok_visited (env : Env) (url : String) (s t : CrawlerState)
    (h : crawlE env url s = Except.ok t) :
    t.visited_urls = s.visited_urls := by
  unfold crawlE at h
  repeat' split at h
  all_goals cases h
  all_goals first | rfl | exact foldl_add_url_to_visit_visited _ _

/-- When `crawl` returns normally, the output file is unchanged. -/
theorem foldl_add_url_to_visit_output (l : List String) (s : CrawlerState) :
    (l.foldl add_url_to_visit s).output_lines = s.output_lines := by
  induction l generalizing s with
  | nil => rfl
  | cons x xs ih => rw [List.foldl_cons, ih, add_url_to_visit_output]

/-- The try/except block around `crawl` never touches the visited set. -/
theorem tryCrawl_visited (env : Env) (url : String) (s : CrawlerState) :
    (tryCrawl env url s).visited_urls = s.visited_urls := by
  unfold tryCrawl
  rcases h : crawlE env url s with e | t
  · rfl
  · exact crawlE_ok_visited env url s t h

/-- What one loop iteration looks like when the pending set model has
head `u`: pop `u`, run the try/except crawl on the remaining state, add
`u` to visited and append the visited set to the output. -/
theorem runStep_eq (env : Env) (s : CrawlerState) (u : String)
    (rest : List String) (h : s.urls_to_visit = u :: rest) :
    runStep env s =
      save_visited_urls
        { tryCrawl env u { s with urls_to_visit := rest } with
          visited_urls := setAdd (tryCrawl env u { s with urls_to_visit := rest }).visited_urls u } := by
  obtain ⟨p, v, o⟩ := s
  have h2 : p = u :: rest := h
  subst h2
  rfl

/-- What one loop iteration does to the visited set: exactly the popped
URL joins it (a set-add, so a re-popped URL does not grow the set). -/
theorem runStep_visited (env : Env) (s : CrawlerState) (u : String)
    (rest : List String) (h : s.urls_to_visit = u :: rest) :
    (runStep env s).visited_urls = setAdd s.visited_urls u := by
  rw [runStep_eq env s u rest h]
  show setAdd (tryCrawl env u { s with urls_to_visit := rest }).visited_urls u = _
  rw [tryCrawl_visited]

/-- A loop whose guard is false does nothing, for any fuel. -/
theorem runLoop_stop (env : Env) (m : Nat) (s : CrawlerState)
    (h : shouldContinue m s = false) :
    ∀ fuel, runLoop env m fuel s = s := by
  intro fuel
  cases fuel with
  | zero => rfl
  | succ n =>
    unfold runLoop
    rw [h]
    simp

/-- The visited-set bound is preserved by the whole loop. -/
theorem runLoop_visited_le (env : Env) (m : Nat) :
    ∀ (fuel : Nat) (s : CrawlerState), s.visited_urls.length ≤ m →
      (runLoop env m fuel s).visited_urls.length ≤ m := by
  intro fuel
  induction fuel with
  | zero => intro s hs; exact hs
  | succ n ih =>
    intro s hs
    unfold runLoop
    by_cases hg : shouldContinue m s = true
    · rw [if_pos hg]
      apply ih
      unfold shouldContinue at hg
      rw [Bool.and_eq_true, decide_eq_true_eq] at hg
      obtain ⟨hne, hlt⟩ := hg
      have hpe : s.urls_to_visit ≠ [] := by
        intro hnil
        rw [hnil] at hne
        simp at hne
      obtain ⟨u, rest, hcons⟩ := List.exists_cons_of_ne_nil hpe
      rw [runStep_visited env s u rest hcons]
      calc (setAdd s.visited_urls u).length ≤ s.visited_urls.length + 1 :=
            length_setAdd_le _ _
        _ ≤ m := hlt
    · rw [if_neg hg]
      exact hs

/-- `add_url_to_visit` keeps pending and visited disjoint: the URL is
inserted only when it lies in neither set. -/
theorem add_url_to_visit_disjoint (s : CrawlerState) (u : String)
    (h : PendingVisitedDisjoint s) :
    PendingVisitedDisjoint (add_url_to_visit s u) := by
  unfold add_url_to_visit
  by_cases hc : u ∉ s.visited_urls ∧ u ∉ s.urls_to_visit
  · rw [if_pos hc]
    intro x hx
    simp only [List.mem_append, List.mem_singleton] at hx
    rcases hx with hx | rfl
    · exact h x hx
    · exact hc.1
  · rw [if_neg hc]
    exact h

/-- Disjointness survives feeding any list of links through
`add_url_to_visit` — so it holds at every intermediate point of the
extraction loop. -/
theorem foldl_add_url_to_visit_disjoint (l : List String) (s : CrawlerState)
    (h : PendingVisitedDisjoint s) :
    PendingVisitedDisjoint (l.foldl add_url_to_visit s) := by
  induction l generalizing s with
  | nil => exact h
  | cons x xs ih =>
    rw [List.foldl_cons]
    exact ih _ (add_url_to_visit_disjoint s x h)

/-- A normal return of `crawl` preserves disjointness. -/
theorem crawlE_ok_disjoint (env : Env) (url : String) (s t : CrawlerState)
    (hd : PendingVisitedDisjoint s) (h : crawlE env url s = Except.ok t) :
    PendingVisitedDisjoint t := by
  unfold crawlE at h
  repeat' split at h
  all_goals cases h
  all_goals first | exact hd | exact foldl_add_url_to_visit_disjoint _ _ hd

/-- The try/except block around `crawl` preserves disjointness of
pending and visited. -/
theorem tryCrawl_disjoint (env : Env) (url : String) (s : CrawlerState)
    (hd : PendingVisitedDisjoint s) :
    PendingVisitedDisjoint (tryCrawl env url s) := by
  unfold tryCrawl
  rcases h : crawlE env url s with e | t
  · exact hd
  · exact crawlE_ok_disjoint env url s t hd h

/-- Every link emitted by the href filter has the netloc of the base
URL. -/
theorem href_to_link_some_netloc (base h p : String)
    (hp : href_to_link base h = some p) :
    urlparse_netloc p = urlparse_netloc base := by
  simp only [href_to_link] at hp
  repeat' split at hp
  all_goals cases hp
  all_goals assumption

/-- C3: `add_url_to_visit` adds `u` to the pending set iff `u` is absent
from both pending and visited, and is otherwise a no-op; offering the
same not-yet-visited `u` twice in a row leaves exactly one instance of
`u` in pending, and for a `u` already in visited the offer changes
nothing. -/
theorem offer_semantics (s : CrawlerState) (u : String) :
    (u ∉ s.visited_urls ∧ u ∉ s.urls_to_visit →
        add_url_to_visit s u = { s with urls_to_visit := s.urls_to_visit ++ [u] })
    ∧ (u ∈ s.visited_urls ∨ u ∈ s.urls_to_visit → add_url_to_visit s u = s)
    ∧ (u ∉ s.visited_urls → s.urls_to_visit.count u ≤ 1 →
        (add_url_to_visit (add_url_to_visit s u) u).urls_to_visit.count u = 1)
    ∧ (u ∈ s.visited_urls → add_url_to_visit s u = s) := by
  refine ⟨fun h => ?_, fun h => ?_, fun hnv hc => ?_, fun h => ?_⟩
  · unfold add_url_to_visit
    rw [if_pos h]
  · unfold add_url_to_visit
    rw [if_neg (by tauto)]
  · by_cases hp : u ∈ s.urls_to_visit
    · have hs : add_url_to_visit s u = s := by
        unfold add_url_to_visit
        rw [if_neg (by tauto)]
      rw [hs, hs]
      have h0 : s.urls_to_visit.count u ≠ 0 := fun hc0 => (List.count_eq_zero.mp hc0) hp
      omega
    · have h1 : add_url_to_visit s u = { s with urls_to_visit := s.urls_to_visit ++ [u] } := by
        unfold add_url_to_visit
        rw [if_pos ⟨hnv, hp⟩]
      have h2 : add_url_to_visit { s with urls_to_visit := s.urls_to_visit ++ [u] } u
          = { s with urls_to_visit := s.urls_to_visit ++ [u] } := by
        unfold add_url_to_visit
        rw [if_neg (by simp)]
      rw [h1, h2]
      simp [List.count_append, List.count_eq_zero.mpr hp]
  · unfold add_url_to_visit
    rw [if_neg (by tauto)]

/-- C3 witness: the three behaviours of `add_url_to_visit` at a concrete
state with one pending and one visited URL. -/
theorem offer_semantics_witness :
    (("https://u.com/" ∉ stateW.visited_urls ∧ "https://u.com/" ∉ stateW.urls_to_visit) ∧
      add_url_to_visit stateW "https://u.com/"
        = { stateW with urls_to_visit := stateW.urls_to_visit ++ ["https://u.com/"] })
    ∧ (add_url_to_visit (add_url_to_visit stateW "https://u.com/")
        "https://u.com/").urls_to_visit.count "https://u.com/" = 1
    ∧ ("https://v.com/" ∈ stateW.visited_urls ∧
        add_url_to_visit stateW "https://v.com/" = stateW) :=
  ⟨⟨by decide, (offer_semantics stateW "https://u.com/").1 (by decide)⟩,
   (offer_semantics stateW "https://u.com/").2.2.1 (by decide) (by decide),
   ⟨by decide, (offer_semantics stateW "https://v.com/").2.2.2 (by decide)⟩⟩

/-- C10: `add_url_to_visit` leaves the visited set (and the output file)
unchanged and removes nothing from pending: its only possible effect is
the insertion of the offered URL at the end of pending. -/
theorem offer_frame (s : CrawlerState) (u : String) :
    (add_url_to_visit s u).visited_urls = s.visited_urls
    ∧ (add_url_to_visit s u).output_lines = s.output_lines
    ∧ (∀ v ∈ s.urls_to_visit, v ∈ (add_url_to_visit s u).urls_to_visit)
    ∧ ((add_url_to_visit s u).urls_to_visit = s.urls_to_visit
        ∨ (add_url_to_visit s u).urls_to_visit = s.urls_to_visit ++ [u]) := by
  refine ⟨add_url_to_visit_visited s u, add_url_to_visit_output s u, ?_, ?_⟩
  · intro v hv
    unfold add_url_to_visit
    by_cases h : u ∉ s.visited_urls ∧ u ∉ s.urls_to_visit
    · rw [if_pos h]
      exact List.mem_append_left _ hv
    · rw [if_neg h]
      exact hv
  · unfold add_url_to_visit
    by_cases h : u ∉ s.visited_urls ∧ u ∉ s.urls_to_visit
    · rw [if_pos h]
      right
      rfl
    · rw [if_neg h]
      left
      rfl

/-- C10 witness: the frame conditions of `add_url_to_visit` at a
concrete state. -/
theorem offer_frame_witness :
    (add_url_to_visit stateW "https://u.com/").visited_urls = stateW.visited_urls
    ∧ (add_url_to_visit stateW "https://u.com/").output_lines = stateW.output_lines
    ∧ "https://p.com/" ∈ (add_url_to_visit stateW "https://u.com/").urls_to_visit
    ∧ ((add_url_to_visit stateW "https://u.com/").urls_to_visit = stateW.urls_to_visit
        ∨ (add_url_to_visit stateW "https://u.com/").urls_to_visit
            = stateW.urls_to_visit ++ ["https://u.com/"]) :=
  ⟨(offer_frame stateW "https://u.com/").1,
   (offer_frame stateW "https://u.com/").2.1,
   (offer_frame stateW "https://u.com/").2.2.1 "https://p.com/" (by decide),
   (offer_frame stateW "https://u.com/").2.2.2⟩

/-- C9: an anchor whose href is the empty string or `javascript:void(0)`
yields nothing (the total function `href_to_link` returns `none`), and
an anchor carrying no href attribute is skipped entirely by
`get_linked_urls`. -/
theorem extraction_edge_cases (base : String) (anchors : List Anchor) :
    href_to_link base "" = none
    ∧ href_to_link base "javascript:void(0)" = none
    ∧ get_linked_urls base { anchors := { href := none } :: anchors }
        = get_linked_urls base { anchors := anchors } :=
  ⟨rfl, rfl, rfl⟩

/-- C7: `download_url` never lets an exception reach its caller — for
every environment and URL its exception-transparent form returns
`Except.ok` of the two-variant `Option` result. -/
theorem download_never_raises (env : Env) (url : String) :
    ∃ r, download_urlE env url = Except.ok r := by
  unfold download_urlE
  rcases h : env.browse url with e | c
  · exact ⟨none, rfl⟩
  · exact ⟨some c, rfl⟩

/-- C1 counterexample: a page linking to itself re-enters the pending
set while its own fetch is being processed, so after the first loop
iteration (the loop still running: the guard held when the iteration
began and two pages are allowed) the crawled URL sits in both pending
and visited, and `pending ∩ visited = ∅` fails. -/
theorem selfLink_breaks_disjointness :
    shouldContinue 2 (initState ["https://a.com/"]) = true
    ∧ "https://a.com/" ∈ (runLoop selfLinkEnv 2 1 (initState ["https://a.com/"])).urls_to_visit
    ∧ "https://a.com/" ∈ (runLoop selfLinkEnv 2 1 (initState ["https://a.com/"])).visited_urls
    ∧ ¬ PendingVisitedDisjoint (runLoop selfLinkEnv 2 1 (initState ["https://a.com/"])) := by
  decide

/-- C1 (amended): `add_url_to_visit` never moves a visited URL back to
pending, so pending and visited stay disjoint at every intermediate
point of fetch-and-extract; the state after a full iteration is again
disjoint provided the popped URL was not re-added to pending during its
own processing (a page linking to the URL currently in flight defeats
the invariant, as the counterexample shows). -/
theorem frontier_disjoint_preserved (env : Env) (s : CrawlerState)
    (u v : String) (rest : List String) :
    (PendingVisitedDisjoint s → PendingVisitedDisjoint (add_url_to_visit s v))
    ∧ (PendingVisitedDisjoint s → s.urls_to_visit = u :: rest →
        u ∉ (runStep env s).urls_to_visit →
        PendingVisitedDisjoint (runStep env s)) := by
  constructor
  · exact add_url_to_visit_disjoint s v
  · intro hd hcons hnp
    rw [runStep_eq env s u rest hcons] at hnp ⊢
    have hd0 : PendingVisitedDisjoint { s with urls_to_visit := rest } := by
      intro x hx
      exact hd x (by rw [hcons]; exact List.mem_cons_of_mem _ hx)
    have hd1 : PendingVisitedDisjoint (tryCrawl env u { s with urls_to_visit := rest }) :=
      tryCrawl_disjoint env u _ hd0
    intro x hx
    show x ∉ setAdd (tryCrawl env u { s with urls_to_visit := rest }).visited_urls u
    rw [mem_setAdd]
    rintro (hxv | rfl)
    · exact hd1 x hx hxv
    · exact hnp hx

/-- C1 witness: the two amended statements at a concrete disjoint state
whose crawl fails (so the popped URL is not re-discovered). -/
theorem frontier_disjoint_preserved_witness :
    (PendingVisitedDisjoint stateW
      ∧ PendingVisitedDisjoint (add_url_to_visit stateW "https://u.com/"))
    ∧ (stateW.urls_to_visit = "https://p.com/" :: []
      ∧ "https://p.com/" ∉ (runStep failEnv stateW).urls_to_visit
      ∧ PendingVisitedDisjoint (runStep failEnv stateW)) :=
  ⟨⟨by decide,
    (frontier_disjoint_preserved failEnv stateW "https://p.com/" "https://u.com/" []).1 (by decide)⟩,
   ⟨by decide, by decide,
    (frontier_disjoint_preserved failEnv stateW "https://p.com/" "https://u.com/" []).2
      (by decide) (by decide) (by decide)⟩⟩

/-- C2: the visited set never exceeds `max_urls` along any run from an
initial state, and the loop guard holds exactly when the pending set is
non-empty and the visited count is below the budget; once the guard is
false the loop makes no further step. -/
theorem budget_invariant (env : Env) (m : Nat) (urls : List String)
    (fuel : Nat) (s : CrawlerState) :
    (runLoop env m fuel (initState urls)).visited_urls.length ≤ m
    ∧ (shouldContinue m s = true ↔ s.urls_to_visit ≠ [] ∧ s.visited_urls.length < m)
    ∧ (shouldContinue m s = false → ∀ f, runLoop env m f s = s) := by
  refine ⟨?_, ?_, runLoop_stop env m s⟩
  · exact runLoop_visited_le env m fuel _ (by simp [initState])
  · unfold shouldContinue
    rw [Bool.and_eq_true, decide_eq_true_eq]
    constructor
    · rintro ⟨h1, h2⟩
      refine ⟨fun hnil => ?_, h2⟩
      rw [hnil] at h1
      simp at h1
    · rintro ⟨h1, h2⟩
      refine ⟨?_, h2⟩
      rw [Bool.not_eq_true', List.isEmpty_eq_false]
      exact h1

/-- C2 witness: the budget bound after a concrete failing run with
budget 1, and the halted loop at a concrete state whose guard is false. -/
theorem budget_invariant_witness :
    (runLoop failEnv 1 3 (initState ["https://p.com/"])).visited_urls.length ≤ 1
    ∧ (shouldContinue 1 stateW = false ∧ runLoop failEnv 1 4 stateW = stateW) :=
  ⟨(budget_invariant failEnv 1 ["https://p.com/"] 3 stateW).1,
   by decide,
   (budget_invariant failEnv 1 ["https://p.com/"] 3 stateW).2.2 (by decide) 4⟩

/-- C4 counterexample: a protocol-relative href (`//example.com/page`)
starts with `/`, so it is resolved against the base scheme and — its
host matching — emitted, not discarded as the claim states. -/
theorem protocol_relative_not_discarded :
    get_linked_urls "https://example.com"
        { anchors := [{ href := some "//example.com/page" }] }
      = ["https://example.com/page"]
    ∧ href_to_link "https://example.com" "//example.com/page" ≠ none := by
  decide

/-- C4 (amended): an href starting with `/` (protocol-relative ones
included) is resolved with `urljoin` against the base URL and emitted
iff its netloc equals the base netloc; an href starting with neither `/`
nor `http` (`mailto:`, `javascript:`, fragment-only, the empty string)
is discarded; every emitted URL has exactly the base URL's netloc; and
the spec's three-anchor scenario yields exactly its two same-host
links. -/
theorem link_extraction_behaviour (base h p : String) :
    (startswith h "/" = true →
        href_to_link base h =
          if urlparse_netloc (urljoin base h) = urlparse_netloc base
          then some (urljoin base h) else none)
    ∧ (startswith h "/" = false → startswith h "http" = false →
        href_to_link base h = none)
    ∧ (href_to_link base h = some p → urlparse_netloc p = urlparse_netloc base)
    ∧ get_linked_urls "https://example.com" exampleSoup
        = ["https://example.com/page1", "https://example.com/page2"] := by
  refine ⟨fun h1 => ?_, fun h1 h2 => ?_, href_to_link_some_netloc base h p, by decide⟩
  · simp only [href_to_link, h1, if_true]
  · simp [href_to_link, h1, h2]

/-- C4 witness: the amended clauses at concrete hrefs — a root-relative
link, a `mailto:` link, and an absolute same-host link. -/
theorem link_extraction_behaviour_witness :
    (startswith "/page1" "/" = true
      ∧ href_to_link "https://example.com" "/page1" =
          if urlparse_netloc (urljoin "https://example.com" "/page1")
              = urlparse_netloc "https://example.com"
          then some (urljoin "https://example.com" "/page1") else none)
    ∧ (startswith "mailto:x@y.com" "/" = false
      ∧ startswith "mailto:x@y.com" "http" = false
      ∧ href_to_link "https://example.com" "mailto:x@y.com" = none)
    ∧ (href_to_link "https://example.com" "https://example.com/page2"
          = some "https://example.com/page2"
      ∧ urlparse_netloc "https://example.com/page2" = urlparse_netloc "https://example.com") :=
  ⟨⟨by decide,
    (link_extraction_behaviour "https://example.com" "/page1" "x").1 (by decide)⟩,
   ⟨by decide, by decide,
    (link_extraction_behaviour "https://example.com" "mailto:x@y.com" "x").2.1
      (by decide) (by decide)⟩,
   ⟨by decide,
    (link_extraction_behaviour "https://example.com" "https://example.com/page2"
      "https://example.com/page2").2.2.1 (by decide)⟩⟩

/-- C5: when the fetch returns `None` or the extraction raises, the
iteration still marks the popped URL visited, records it to the Sink,
leaves exactly the remaining pending URLs, and the loop simply continues
with the next state. -/
theorem failure_isolation (env : Env) (m : Nat) (s : CrawlerState)
    (u : String) (rest : List String) (fuel : Nat)
    (hcons : s.urls_to_visit = u :: rest)
    (hfail : download_url env u = none ∨
      ∃ html e, download_url env u = some html ∧ html ≠ "" ∧
        env.parse html = Except.error e) :
    u ∈ (runStep env s).visited_urls
    ∧ (runStep env s).urls_to_visit = rest
    ∧ u ∈ (runStep env s).output_lines
    ∧ (shouldContinue m s = true →
        runLoop env m (fuel + 1) s = runLoop env m fuel (runStep env s)) := by
  have htc : ∀ t : CrawlerState, tryCrawl env u t = t := by
    intro t
    have hc : crawlE env u t = Except.ok t ∨ ∃ e, crawlE env u t = Except.error e := by
      unfold crawlE
      rcases hfail with hf | ⟨html, e, hdl, hne, hpe⟩
      · rw [hf]
        left
        rfl
      · simp only [hdl]
        rw [if_neg hne]
        simp only [hpe]
        right
        exact ⟨e, rfl⟩
    unfold tryCrawl
    rcases hc with hok | ⟨e, herr⟩
    · rw [hok]
    · rw [herr]
  refine ⟨?_, ?_, ?_, fun hg => ?_⟩
  · rw [runStep_eq env s u rest hcons, htc]
    show u ∈ setAdd s.visited_urls u
    rw [mem_setAdd]
    right
    rfl
  · rw [runStep_eq env s u rest hcons, htc]
    rfl
  · rw [runStep_eq env s u rest hcons, htc]
    show u ∈ s.output_lines ++ setAdd s.visited_urls u
    refine List.mem_append_right _ ?_
    rw [mem_setAdd]
    right
    rfl
  · show (if shouldContinue m s then runLoop env m fuel (runStep env s) else s)
        = runLoop env m fuel (runStep env s)
    rw [if_pos hg]

/-- C5 witness: a crawler whose every fetch fails still marks the popped
URL visited, records it, and continues with the remaining (empty)
pending set. -/
theorem failure_isolation_witness :
    (stateW.urls_to_visit = "https://p.com/" :: []
      ∧ download_url failEnv "https://p.com/" = none)
    ∧ ("https://p.com/" ∈ (runStep failEnv stateW).visited_urls
      ∧ (runStep failEnv stateW).urls_to_visit = []
      ∧ "https://p.com/" ∈ (runStep failEnv stateW).output_lines
      ∧ (shouldContinue 5 stateW = true →
          runLoop failEnv 5 (2 + 1) stateW = runLoop failEnv 5 2 (runStep failEnv stateW))) :=
  ⟨⟨rfl, rfl⟩,
   failure_isolation failEnv 5 stateW "https://p.com/" [] 2 rfl (Or.inl rfl)⟩

/-- C6 (code bug): `run` calls `save_visited_urls` in the `finally` of
every iteration, and that function re-appends the entire visited set, so
a two-iteration run (seed `https://a.com/` linking to `/b`, budget 2)
already writes the seed URL twice: the output of a single run is not
duplicate-free. -/
theorem sink_duplicates_within_run :
    (runLoop seedABEnv 2 2 (initState ["https://a.com/"])).output_lines
      = ["https://a.com/", "https://a.com/", "https://a.com/b"]
    ∧ ¬ (runLoop seedABEnv 2 2 (initState ["https://a.com/"])).output_lines.Nodup := by
  decide

/-- C8: with budget 1 and seed `https://a.com/` whose page links to `/b`
and `/c`, the loop performs exactly one iteration for any fuel: the seed
alone is visited, and the two discovered URLs stay pending, never
visited. -/
theorem budget_one_scenario (fuel : Nat) :
    runLoop seedABCEnv 1 (fuel + 1) (initState ["https://a.com/"]) = budgetOneFinal
    ∧ "https://a.com/b" ∈ budgetOneFinal.urls_to_visit
    ∧ "https://a.com/c" ∈ budgetOneFinal.urls_to_visit
    ∧ budgetOneFinal.visited_urls = ["https://a.com/"]
    ∧ shouldContinue 1 budgetOneFinal = false := by
  refine ⟨?_, by decide, by decide, by decide, by decide⟩
  show (if shouldContinue 1 (initState ["https://a.com/"]) then
      runLoop seedABCEnv 1 fuel (runStep seedABCEnv (initState ["https://a.com/"]))
    else initState ["https://a.com/"]) = budgetOneFinal
  rw [if_pos (by decide : shouldContinue 1 (initState ["https://a.com/"]) = true)]
  rw [(by decide : runStep seedABCEnv (initState ["https://a.com/"]) = budgetOneFinal)]
  exact runLoop_stop seedABCEnv 1 budgetOneFinal (by decide) fuel

end WebCrawler
